import Mathlib

/-!
Verification of the beadcrumbs core against its specification.

The definitions below are a shallow embedding of the Go sources:
  - `internal/types` (entity structures, `GenerateID`),
  - `internal/store` (SQLite-backed relational store: tables, uniqueness
    constraints, filtered listing, dependency queries, migrations),
  - `internal/jsonl` (line-delimited JSON log codec),
  - `cmd/bdc` (trace and unresolved-question traversals).

Modelling conventions, applied uniformly:
  - Go `time.Time` is modelled as `Int` (`Timestamp`); the Go zero time is
    `0`, matching the `since.IsZero()` check in `ListInsights`.
  - Go `float32` (the confidence scalar) is modelled as `Rat`; JSON numbers
    are carried exactly in the JSON value tree.
  - Go `[]string` is modelled as `Option (List String)`: `none` is the nil
    slice, `some xs` a non-nil slice (the `omitempty` JSON tag drops both
    `none` and `some []`, exactly like Go's `len == 0` test).
  - SQLite rows are modelled as Lean structures in insertion-ordered lists;
    `NULL`-able text columns follow the Go store code, which writes `NULL`
    for an empty `ThreadID`/`AuthorID` string and reads `NULL` back as `""`,
    so rows carry the Go string values directly.
  - `ORDER BY c ASC/DESC` is modelled by a sort on the insertion-ordered
    row list (SQLite promises nothing about the order of ties).
-/

namespace Beadcrumbs

/-- Model of Go `time.Time`: an instant on an integer timeline; the Go zero
time is `0`. -/
abbrev Timestamp := Int

/-- `internal/types.InsightSource` — origin descriptor of an insight. -/
structure InsightSource where
  type : String
  ref : String
  participants : Option (List String)
deriving Repr, DecidableEq

/-- `internal/types.Insight` — the atomic insight record.  Field names and
order follow the Go struct; `tags` carries the JSON key `labels`. -/
structure Insight where
  id : String
  timestamp : Timestamp
  content : String
  summary : String
  type : String
  confidence : Rat
  source : InsightSource
  threadID : String
  authorID : String
  endorsedBy : Option (List String)
  tags : Option (List String)
  createdBy : String
  createdAt : Timestamp
deriving Repr, DecidableEq

/-- `internal/types.InsightThread` — a named narrative grouping. -/
structure InsightThread where
  id : String
  title : String
  status : String
  currentUnderstanding : String
  createdAt : Timestamp
  updatedAt : Timestamp
deriving Repr, DecidableEq

/-- `internal/types.Dependency` — a typed directed edge.  The Go fields
`From`/`To` are named after the SQL columns `from_id`/`to_id` because `from`
is a Lean keyword. -/
structure Dependency where
  fromID : String
  toID : String
  type : String
  createdAt : Timestamp
deriving Repr, DecidableEq

/-! ## Identifier generator (`internal/types.GenerateID`) -/

/-- The lowercase hexadecimal alphabet used by Go `encoding/hex`. -/
def hexAlphabet : List Char :=
  "0123456789abcdef".toList

/-- Go `encoding/hex` encoding of one byte: two lowercase hex digits,
high nibble first. -/
def hexEncodeByte (b : Nat) : List Char :=
  [hexAlphabet.getD (b / 16 % 16) '0', hexAlphabet.getD (b % 16) '0']

/-- Go `hex.EncodeToString` on a byte slice. -/
def hexEncodeToString (bytes : List Nat) : String :=
  String.mk (bytes.flatMap hexEncodeByte)

/-- `internal/types.GenerateID`: the 4 bytes drawn from `crypto/rand.Read`
are passed explicitly.  The Go body is
`prefix + "-" + hex.EncodeToString(bytes)[:4]`; the `[:4]` byte-slice of an
ASCII hex string is the first 4 characters. -/
def GenerateID (pfx : String) (bytes : List Nat) : String :=
  pfx ++ "-" ++ String.mk ((hexEncodeToString bytes).toList.take 4)

/-- **C1** (counterexample): the spec promises `prefix + "-" + 8` hex
characters from 4 random bytes, but at the concrete random bytes
`[0xab, 0xcd, 0x12, 0x34]` the generator returns `"ins-abcd"`: the suffix
after `"ins-"` has 4 characters, not 8. -/
theorem C1_generateID_suffix_is_not_8_hex :
    GenerateID "ins" [0xab, 0xcd, 0x12, 0x34] = "ins-abcd" ∧
      ¬ ∃ suffix : String,
        GenerateID "ins" [0xab, 0xcd, 0x12, 0x34] = "ins" ++ "-" ++ suffix ∧
          suffix.length = 8 := by
  constructor
  · decide
  · rintro ⟨suffix, heq, hlen⟩
    have h1 : (GenerateID "ins" [0xab, 0xcd, 0x12, 0x34]).length = 8 := by decide
    rw [heq, String.length_append, String.length_append, hlen] at h1
    have h2 : ("ins" : String).length = 3 := rfl
    have h3 : ("-" : String).length = 1 := rfl
    omega

/-- Every character produced by the hex encoding of a byte index below 16
lies in the hex alphabet. -/
theorem getD_hexAlphabet_mem (k : Nat) (hk : k < 16) :
    hexAlphabet.getD k '0' ∈ hexAlphabet := by
  interval_cases k <;> decide

/-- Both characters of a hex-encoded byte lie in the hex alphabet. -/
theorem hexEncodeByte_mem (b : Nat) : ∀ c ∈ hexEncodeByte b, c ∈ hexAlphabet := by
  intro c hc
  simp only [hexEncodeByte, List.mem_cons, List.not_mem_nil, or_false] at hc
  rcases hc with h | h <;>
    exact h ▸ getD_hexAlphabet_mem _ (Nat.mod_lt _ (by omega))

/-- **C1** (amended): for every prefix string and every 4-byte random draw,
the identifier generator returns the prefix, then a hyphen, then a
4-hexadecimal-character suffix; the suffix is the hex encoding of the first
2 of the 4 random bytes (a 16-bit suffix space). -/
theorem C1_generateID_amended (pfx : String) (bytes : List Nat)
    (hlen : bytes.length = 4) :
    GenerateID pfx bytes = pfx ++ "-" ++ hexEncodeToString (bytes.take 2) ∧
      (hexEncodeToString (bytes.take 2)).length = 4 ∧
      ∀ c ∈ (hexEncodeToString (bytes.take 2)).toList, c ∈ hexAlphabet := by
  obtain ⟨b0, b1, b2, b3, hb⟩ : ∃ b0 b1 b2 b3, bytes = [b0, b1, b2, b3] := by
    match bytes, hlen with
    | [b0, b1, b2, b3], _ => exact ⟨b0, b1, b2, b3, rfl⟩
  subst hb
  refine ⟨rfl, rfl, ?_⟩
  intro c hc
  have hc' : c ∈ hexEncodeByte b0 ++ hexEncodeByte b1 := hc
  rcases List.mem_append.mp hc' with h | h
  · exact hexEncodeByte_mem b0 c h
  · exact hexEncodeByte_mem b1 c h

/-- **C1** (witness): the amended theorem applied at a concrete prefix and
concrete random bytes. -/
theorem C1_generateID_amended_witness :
    GenerateID "thr" [0x9e, 0x1b, 0x00, 0xff]
        = "thr" ++ "-" ++ hexEncodeToString [0x9e, 0x1b] ∧
      (hexEncodeToString [0x9e, 0x1b]).length = 4 ∧
      ∀ c ∈ (hexEncodeToString [0x9e, 0x1b]).toList, c ∈ hexAlphabet := by
  have h := C1_generateID_amended "thr" [0x9e, 0x1b, 0x00, 0xff] (by decide)
  exact h

/-! ## Log codec (`internal/jsonl` with `encoding/json` struct tags)

JSON values are modelled as a tree.  A Go `time.Time` marshals to its
RFC3339 text, which Go parses back to the same instant; the model carries
the instant itself in a dedicated constructor standing for that text. -/

/-- A JSON value as produced/consumed by Go `encoding/json` for the
beadcrumbs entities.  `num` carries the numeric value exactly; `time`
stands for the RFC3339 string of a `time.Time`. -/
inductive Json where
  | str : String → Json
  | num : Rat → Json
  | time : Timestamp → Json
  | arr : List Json → Json
  | obj : List (String × Json) → Json
deriving Repr

/-- First binding of a key in a JSON object's field list. -/
def lookupField : List (String × Json) → String → Option Json
  | [], _ => none
  | (k', v) :: rest, k => if k' = k then some v else lookupField rest k

/-- A string field with the `omitempty` tag: omitted when `""`. -/
def omitStr (k : String) (v : String) : List (String × Json) :=
  if v = "" then [] else [(k, Json.str v)]

/-- A `[]string` field with the `omitempty` tag: omitted when its length is
zero (both the nil slice and a non-nil empty slice). -/
def omitStrList (k : String) (v : Option (List String)) : List (String × Json) :=
  match v with
  | none => []
  | some [] => []
  | some xs => [(k, Json.arr (xs.map Json.str))]

/-- Go unmarshal of a JSON value into a `string`. -/
def asString : Json → Option String
  | .str s => some s
  | _ => none

/-- Go unmarshal of a `string` struct field: an absent key leaves the zero
value `""`; a non-string value is an unmarshal error. -/
def decodeStrField (fs : List (String × Json)) (k : String) : Option String :=
  match lookupField fs k with
  | none => some ""
  | some (.str s) => some s
  | some _ => none

/-- Go unmarshal of a numeric struct field (the `float32` confidence). -/
def decodeNumField (fs : List (String × Json)) (k : String) : Option Rat :=
  match lookupField fs k with
  | none => some 0
  | some (.num q) => some q
  | some _ => none

/-- Go unmarshal of a `time.Time` struct field. -/
def decodeTimeField (fs : List (String × Json)) (k : String) : Option Timestamp :=
  match lookupField fs k with
  | none => some 0
  | some (.time t) => some t
  | some _ => none

/-- Elementwise Go unmarshal of a JSON array into `[]string`; any
non-string element is an unmarshal error. -/
def decodeStringArray : List Json → Option (List String)
  | [] => some []
  | j :: rest =>
    match asString j, decodeStringArray rest with
    | some s, some ss => some (s :: ss)
    | _, _ => none

/-- Go unmarshal of a `[]string` struct field: an absent key leaves the nil
slice; an array decodes elementwise. -/
def decodeStrListField (fs : List (String × Json)) (k : String) :
    Option (Option (List String)) :=
  match lookupField fs k with
  | none => some none
  | some (.arr xs) => (decodeStringArray xs).map some
  | some _ => none

/-- JSON encoding of `InsightSource` per its struct tags
(`type`, `ref,omitempty`, `participants,omitempty`). -/
def encodeInsightSource (s : InsightSource) : Json :=
  .obj ([("type", Json.str s.type)] ++ omitStr "ref" s.ref
    ++ omitStrList "participants" s.participants)

/-- JSON decoding of `InsightSource`. -/
def decodeInsightSource : Json → Option InsightSource
  | .obj fs => do
    let t ← decodeStrField fs "type"
    let r ← decodeStrField fs "ref"
    let p ← decodeStrListField fs "participants"
    pure ⟨t, r, p⟩
  | _ => none

/-- JSON encoding of `Insight` per its struct tags, in Go field order;
`Tags` carries the JSON key `labels`. -/
def encodeInsight (i : Insight) : Json :=
  .obj ([("id", Json.str i.id), ("timestamp", Json.time i.timestamp),
    ("content", Json.str i.content), ("summary", Json.str i.summary),
    ("type", Json.str i.type), ("confidence", Json.num i.confidence),
    ("source", encodeInsightSource i.source)]
    ++ omitStr "thread_id" i.threadID
    ++ omitStr "author_id" i.authorID
    ++ omitStrList "endorsed_by" i.endorsedBy
    ++ omitStrList "labels" i.tags
    ++ omitStr "created_by" i.createdBy
    ++ [("created_at", Json.time i.createdAt)])

/-- JSON decoding of `Insight`: an absent `source` key leaves the zero
`InsightSource`. -/
def decodeInsight : Json → Option Insight
  | .obj fs => do
    let id ← decodeStrField fs "id"
    let ts ← decodeTimeField fs "timestamp"
    let content ← decodeStrField fs "content"
    let summary ← decodeStrField fs "summary"
    let ty ← decodeStrField fs "type"
    let conf ← decodeNumField fs "confidence"
    let src ← match lookupField fs "source" with
      | none => some (⟨"", "", none⟩ : InsightSource)
      | some j => decodeInsightSource j
    let th ← decodeStrField fs "thread_id"
    let au ← decodeStrField fs "author_id"
    let eb ← decodeStrListField fs "endorsed_by"
    let tg ← decodeStrListField fs "labels"
    let cb ← decodeStrField fs "created_by"
    let ca ← decodeTimeField fs "created_at"
    pure ⟨id, ts, content, summary, ty, conf, src, th, au, eb, tg, cb, ca⟩
  | _ => none

/-- JSON encoding of `InsightThread` per its struct tags. -/
def encodeInsightThread (t : InsightThread) : Json :=
  .obj ([("id", Json.str t.id), ("title", Json.str t.title),
    ("status", Json.str t.status)]
    ++ omitStr "current_understanding" t.currentUnderstanding
    ++ [("created_at", Json.time t.createdAt),
        ("updated_at", Json.time t.updatedAt)])

/-- JSON decoding of `InsightThread`. -/
def decodeInsightThread : Json → Option InsightThread
  | .obj fs => do
    let id ← decodeStrField fs "id"
    let title ← decodeStrField fs "title"
    let status ← decodeStrField fs "status"
    let cu ← decodeStrField fs "current_understanding"
    let ca ← decodeTimeField fs "created_at"
    let ua ← decodeTimeField fs "updated_at"
    pure ⟨id, title, status, cu, ca, ua⟩
  | _ => none

/-- JSON encoding of `Dependency` per its struct tags (no `omitempty`). -/
def encodeDependency (d : Dependency) : Json :=
  .obj [("from", Json.str d.fromID), ("to", Json.str d.toID),
    ("type", Json.str d.type), ("created_at", Json.time d.createdAt)]

/-- JSON decoding of `Dependency`. -/
def decodeDependency : Json → Option Dependency
  | .obj fs => do
    let f ← decodeStrField fs "from"
    let t ← decodeStrField fs "to"
    let ty ← decodeStrField fs "type"
    let ca ← decodeTimeField fs "created_at"
    pure ⟨f, t, ty, ca⟩
  | _ => none

/-- Decoding an array of JSON strings recovers the original string list. -/
theorem decodeStringArray_map_str (xs : List String) :
    decodeStringArray (xs.map Json.str) = some xs := by
  induction xs with
  | nil => rfl
  | cons x xs ih => simp [decodeStringArray, asString, ih]

/-- `map_cons`-normalized form of `decodeStringArray_map_str`. -/
theorem decodeStringArray_str_cons (x : String) (xs : List String) :
    decodeStringArray (Json.str x :: xs.map Json.str) = some (x :: xs) := by
  simp [decodeStringArray, asString, decodeStringArray_map_str xs]

set_option maxHeartbeats 4000000 in
/-- **C2**: decode ∘ encode is the identity on insight, thread and
dependency values — both when every optional field is populated and when
every optional field is left empty (the Go zero value).  The hypotheses
exclude only the non-nil empty slice, which is neither "populated" nor
"left empty"; for optional string fields, Go's value model identifies an
absent field with the empty string, so the equality covers both. -/
theorem C2_jsonl_roundtrip (i : Insight) (t : InsightThread) (d : Dependency)
    (hp : i.source.participants ≠ some [])
    (he : i.endorsedBy ≠ some [])
    (ht : i.tags ≠ some []) :
    decodeInsight (encodeInsight i) = some i ∧
      decodeInsightThread (encodeInsightThread t) = some t ∧
      decodeDependency (encodeDependency d) = some d := by
  obtain ⟨iid, its, ict, ism, ity, icf, ⟨st, sr, sp⟩, th, au, eb, tg, cb, ca⟩ := i
  obtain ⟨tid, ttl, tst, tcu, tca, tua⟩ := t
  obtain ⟨df, dt, dty, dca⟩ := d
  refine ⟨?_, ?_, ?_⟩
  · rcases sp with _ | ⟨_ | ⟨p0, ps⟩⟩ <;>
      rcases eb with _ | ⟨_ | ⟨e0, es⟩⟩ <;>
        rcases tg with _ | ⟨_ | ⟨g0, gs⟩⟩ <;>
          first
          | (exact absurd rfl (by assumption))
          | (by_cases h1 : sr = "" <;> by_cases h2 : th = "" <;>
              by_cases h3 : au = "" <;> by_cases h4 : cb = "" <;>
              simp [encodeInsight, decodeInsight, encodeInsightSource,
                decodeInsightSource, omitStr, omitStrList, lookupField,
                decodeStrField, decodeTimeField, decodeNumField,
                decodeStrListField, decodeStringArray_map_str,
                decodeStringArray_str_cons, h1, h2, h3, h4])
  · by_cases h : tcu = "" <;>
      simp [encodeInsightThread, decodeInsightThread, omitStr, lookupField,
        decodeStrField, decodeTimeField, h]
  · rfl

/-- **C2** (witness): the round-trip theorem applied to concrete fully
populated values. -/
theorem C2_jsonl_roundtrip_witness :
    decodeInsight (encodeInsight
        ⟨"ins-0001", 10, "Found the bug", "summary", "discovery", (9 : Rat) / 10,
          ⟨"human", "session-123", some ["alice"]⟩, "thr-0001", "brian",
          some ["alice"], some ["test"], "alice", 10⟩)
      = some
        ⟨"ins-0001", 10, "Found the bug", "summary", "discovery", (9 : Rat) / 10,
          ⟨"human", "session-123", some ["alice"]⟩, "thr-0001", "brian",
          some ["alice"], some ["test"], "alice", 10⟩ :=
  (C2_jsonl_roundtrip _ ⟨"thr-0001", "t", "active", "", 0, 0⟩
    ⟨"ins-0001", "ins-0002", "builds-on", 0⟩
    (by decide) (by decide) (by decide)).1

/-! ## Relational store (`internal/store/store.go`)

The SQLite tables are modelled as insertion-ordered row lists; the
`PRIMARY KEY` / `UNIQUE` constraints of the migration DDL appear as the
explicit duplicate checks the constraint performs on insert. -/

/-- The dependency type constants of `internal/types`. -/
def DepBuildsOn : String := "builds-on"

/-- `supersedes` — replaces/corrects. -/
def DepSupersedes : String := "supersedes"

/-- `contradicts` — unresolved tension. -/
def DepContradicts : String := "contradicts"

/-- `spawns` — led to task creation. -/
def DepSpawns : String := "spawns"

/-- `informed-by` — task informed by insight. -/
def DepInformedBy : String := "informed-by"

/-- The `question` insight type constant. -/
def InsightQuestion : String := "question"

/-- Error kinds surfaced by the store, per the error strings in
`internal/store/store.go`. -/
inductive StoreError where
  | duplicate (msg : String)
  | notFound (msg : String)
deriving Repr, DecidableEq

/-- The SQLite database state: the four tables of the migrated schema. -/
structure Store where
  insights : List Insight
  threads : List InsightThread
  dependencies : List Dependency
  config : List (String × String)
deriving Repr, DecidableEq

/-- `Store.CreateInsight`: `INSERT INTO insights ...`; the `id` PRIMARY KEY
constraint rejects a row whose id is already present. -/
def CreateInsight (s : Store) (i : Insight) : Except StoreError Store :=
  if s.insights.any (fun r => r.id == i.id) then
    .error (.duplicate "failed to insert insight: UNIQUE constraint failed: insights.id")
  else
    .ok { s with insights := s.insights ++ [i] }

/-- `Store.AddDependency`: `INSERT INTO dependencies ...`; the
`PRIMARY KEY (from_id, to_id, type)` constraint rejects a duplicate triple,
which the Go code maps to its "dependency already exists" error. -/
def AddDependency (s : Store) (d : Dependency) : Except StoreError Store :=
  if s.dependencies.any (fun e =>
      e.fromID == d.fromID && e.toID == d.toID && e.type == d.type) then
    .error (.duplicate ("dependency already exists: " ++ d.fromID ++ " -> "
      ++ d.toID ++ " (" ++ d.type ++ ")"))
  else
    .ok { s with dependencies := s.dependencies ++ [d] }

/-- `Store.UpdateInsight`: executes `UPDATE insights SET ... WHERE id = ?`
(replacing every matching row), then reports not-found when zero rows were
affected.  The pair carries the post-statement database state alongside the
Go return value. -/
def UpdateInsight (s : Store) (i : Insight) :
    Store × Except StoreError Unit :=
  let affected := s.insights.countP (fun r => r.id == i.id)
  let s' := { s with insights := s.insights.map (fun r => if r.id = i.id then i else r) }
  if affected = 0 then
    (s', .error (.notFound ("insight not found: " ++ i.id)))
  else
    (s', .ok ())

/-- `Store.DeleteInsight`: executes `DELETE FROM insights WHERE id = ?`,
then reports not-found when zero rows were affected. -/
def DeleteInsight (s : Store) (id : String) :
    Store × Except StoreError Unit :=
  let affected := s.insights.countP (fun r => r.id == id)
  let s' := { s with insights := s.insights.filter (fun r => !(r.id == id)) }
  if affected = 0 then
    (s', .error (.notFound ("insight not found: " ++ id)))
  else
    (s', .ok ())

/-- The conjunctive row predicate of `Store.ListInsights`'s dynamically
built `WHERE` clause: each filter clause is appended only when its argument
is non-zero. -/
def insightMatches (threadID insightType : String) (since : Timestamp)
    (i : Insight) : Bool :=
  (threadID == "" || i.threadID == threadID) &&
    (insightType == "" || i.type == insightType) &&
    (since == 0 || decide (since ≤ i.timestamp))

/-- `Store.ListInsights`: filtered rows `ORDER BY timestamp DESC`. -/
def ListInsights (s : Store) (threadID insightType : String)
    (since : Timestamp) : List Insight :=
  List.insertionSort (fun a b => b.timestamp ≤ a.timestamp)
    (s.insights.filter (insightMatches threadID insightType since))

/-- `Store.GetDependencies`: rows with the given source,
`ORDER BY created_at` ascending. -/
def GetDependencies (s : Store) (fromID : String) : List Dependency :=
  List.insertionSort (fun a b => a.createdAt ≤ b.createdAt)
    (s.dependencies.filter (fun d => d.fromID == fromID))

/-- `Store.GetDependents`: rows with the given target,
`ORDER BY created_at` ascending. -/
def GetDependents (s : Store) (toID : String) : List Dependency :=
  List.insertionSort (fun a b => a.createdAt ≤ b.createdAt)
    (s.dependencies.filter (fun d => d.toID == toID))

/-- **C3**: creating a second insight with an identifier already present
fails with a Duplicate error; creating a second dependency with an
identical (source, target, type) triple fails with a Duplicate error; and
creating a dependency with the same source and target but a different type
(one not already present) succeeds. -/
theorem C3_uniqueness (s s₁ s₂ : Store) (i i' : Insight) (d d' d'' : Dependency)
    (hins : CreateInsight s i = .ok s₁) (hid : i'.id = i.id)
    (hdep : AddDependency s d = .ok s₂)
    (hsame : d'.fromID = d.fromID ∧ d'.toID = d.toID ∧ d'.type = d.type)
    (hdiff : d''.fromID = d.fromID ∧ d''.toID = d.toID ∧ d''.type ≠ d.type)
    (hfresh : ∀ e ∈ s.dependencies,
      ¬(e.fromID = d''.fromID ∧ e.toID = d''.toID ∧ e.type = d''.type)) :
    (∃ msg, CreateInsight s₁ i' = .error (.duplicate msg)) ∧
      (∃ msg, AddDependency s₂ d' = .error (.duplicate msg)) ∧
      (∃ s₃, AddDependency s₂ d'' = .ok s₃) := by
  obtain ⟨hf, ht, hty⟩ := hsame
  obtain ⟨hf'', ht'', hty''⟩ := hdiff
  unfold CreateInsight at hins
  unfold AddDependency at hdep
  split at hins
  · exact (Except.noConfusion hins)
  · split at hdep
    · exact (Except.noConfusion hdep)
    · cases hins
      cases hdep
      have hcond : ((s.dependencies ++ [d]).any (fun e =>
          e.fromID == d''.fromID && e.toID == d''.toID && e.type == d''.type))
            = false := by
        rw [Bool.eq_false_iff]
        intro hany
        rw [List.any_eq_true] at hany
        obtain ⟨e, he, hpe⟩ := hany
        rw [List.mem_append] at he
        simp only [Bool.and_eq_true, beq_iff_eq] at hpe
        obtain ⟨⟨h1, h2⟩, h3⟩ := hpe
        rcases he with he | he
        · exact hfresh e he ⟨h1, h2, h3⟩
        · have hd : e = d := by simpa using he
          subst hd
          exact hty'' h3.symm
      refine ⟨⟨"failed to insert insight: UNIQUE constraint failed: insights.id", ?_⟩,
        ⟨"dependency already exists: " ++ d'.fromID ++ " -> " ++ d'.toID
          ++ " (" ++ d'.type ++ ")", ?_⟩,
        ⟨{ s with dependencies := (s.dependencies ++ [d]) ++ [d''] }, ?_⟩⟩
      · unfold CreateInsight
        rw [if_pos (by simp [List.any_append, hid])]
      · unfold AddDependency
        rw [if_pos (by simp [List.any_append, hf, ht, hty])]
      · unfold AddDependency
        rw [hcond]
        rfl

/-- **C3** (witness): the uniqueness theorem applied to a concrete empty
store with concrete insights and dependencies. -/
theorem C3_uniqueness_witness :
    (∃ msg,
      CreateInsight
        ⟨[⟨"ins-1", 0, "c", "", "discovery", 1, ⟨"human", "", none⟩, "", "",
          none, none, "", 0⟩], [], [], []⟩
        ⟨"ins-1", 5, "other", "", "question", 1, ⟨"human", "", none⟩, "", "",
          none, none, "", 0⟩ = .error (.duplicate msg)) ∧
      (∃ msg,
        AddDependency ⟨[], [], [⟨"ins-1", "ins-2", "builds-on", 3⟩], []⟩
          ⟨"ins-1", "ins-2", "builds-on", 9⟩ = .error (.duplicate msg)) ∧
      (∃ s₃,
        AddDependency ⟨[], [], [⟨"ins-1", "ins-2", "builds-on", 3⟩], []⟩
          ⟨"ins-1", "ins-2", "supersedes", 9⟩ = .ok s₃) :=
  C3_uniqueness ⟨[], [], [], []⟩ _ _
    ⟨"ins-1", 0, "c", "", "discovery", 1, ⟨"human", "", none⟩, "", "",
      none, none, "", 0⟩
    ⟨"ins-1", 5, "other", "", "question", 1, ⟨"human", "", none⟩, "", "",
      none, none, "", 0⟩
    ⟨"ins-1", "ins-2", "builds-on", 3⟩
    ⟨"ins-1", "ins-2", "builds-on", 9⟩
    ⟨"ins-1", "ins-2", "supersedes", 9⟩
    (by rfl) (by decide) (by rfl) (by decide) (by decide) (by simp)

/-- **C10**: updating or deleting an insight whose identifier is absent
from the store returns a not-found error and leaves the store state
entirely unchanged. -/
theorem C10_update_delete_not_found (s : Store) (i : Insight) (id : String)
    (hi : i.id = id) (habs : ∀ r ∈ s.insights, r.id ≠ id) :
    UpdateInsight s i = (s, .error (.notFound ("insight not found: " ++ id))) ∧
      DeleteInsight s id = (s, .error (.notFound ("insight not found: " ++ id))) := by
  subst hi
  have hcount : s.insights.countP (fun r => r.id == i.id) = 0 := by
    rw [List.countP_eq_zero]
    intro r hr
    simpa using habs r hr
  have hmap : s.insights.map (fun r => if r.id = i.id then i else r) = s.insights := by
    conv_rhs => rw [← List.map_id s.insights]
    apply List.map_congr_left
    intro r hr
    simp [habs r hr]
  have hfilter : s.insights.filter (fun r => !(r.id == i.id)) = s.insights := by
    rw [List.filter_eq_self]
    intro r hr
    simp [habs r hr]
  constructor
  · unfold UpdateInsight
    simp [hcount, hmap]
  · unfold DeleteInsight
    simp [hcount, hfilter]

/-- **C10** (witness): updating and deleting by the absent identifier
`"ins-9999"` on a concrete one-row store. -/
theorem C10_update_delete_not_found_witness :
    UpdateInsight
        ⟨[⟨"ins-1", 0, "c", "", "discovery", 1, ⟨"human", "", none⟩, "", "",
          none, none, "", 0⟩], [], [], []⟩
        ⟨"ins-9999", 5, "x", "", "question", 1, ⟨"human", "", none⟩, "", "",
          none, none, "", 0⟩
      = (⟨[⟨"ins-1", 0, "c", "", "discovery", 1, ⟨"human", "", none⟩, "", "",
          none, none, "", 0⟩], [], [], []⟩,
        .error (.notFound ("insight not found: " ++ "ins-9999"))) ∧
      DeleteInsight
        ⟨[⟨"ins-1", 0, "c", "", "discovery", 1, ⟨"human", "", none⟩, "", "",
          none, none, "", 0⟩], [], [], []⟩ "ins-9999"
      = (⟨[⟨"ins-1", 0, "c", "", "discovery", 1, ⟨"human", "", none⟩, "", "",
          none, none, "", 0⟩], [], [], []⟩,
        .error (.notFound ("insight not found: " ++ "ins-9999"))) :=
  C10_update_delete_not_found _
    ⟨"ins-9999", 5, "x", "", "question", 1, ⟨"human", "", none⟩, "", "",
      none, none, "", 0⟩ "ins-9999" (by decide) (by decide)

/-- **C4**: `ListInsights` returns exactly the stored insights satisfying
all provided filters (an absent filter — empty string or zero time —
matches everything), ordered by occurrence timestamp descending, and
omitting any one filter yields a superset of the filtered result. -/
theorem C4_list_insights_filters (s : Store) (threadID insightType : String)
    (since : Timestamp) :
    (∀ i, i ∈ ListInsights s threadID insightType since ↔
        i ∈ s.insights ∧ (threadID = "" ∨ i.threadID = threadID) ∧
          (insightType = "" ∨ i.type = insightType) ∧
          (since = 0 ∨ since ≤ i.timestamp)) ∧
      (ListInsights s threadID insightType since).Pairwise
        (fun a b => b.timestamp ≤ a.timestamp) ∧
      (∀ i, i ∈ ListInsights s threadID insightType since →
        i ∈ ListInsights s "" insightType since) ∧
      (∀ i, i ∈ ListInsights s threadID insightType since →
        i ∈ ListInsights s threadID "" since) ∧
      (∀ i, i ∈ ListInsights s threadID insightType since →
        i ∈ ListInsights s threadID insightType 0) := by
  have hmem : ∀ (t ty : String) (sc : Timestamp) (i : Insight),
      i ∈ ListInsights s t ty sc ↔
        i ∈ s.insights ∧ (t = "" ∨ i.threadID = t) ∧
          (ty = "" ∨ i.type = ty) ∧ (sc = 0 ∨ sc ≤ i.timestamp) := by
    intro t ty sc i
    unfold ListInsights
    rw [(List.perm_insertionSort _ _).mem_iff, List.mem_filter]
    unfold insightMatches
    simp [and_assoc]
  refine ⟨hmem _ _ _, ?_, ?_, ?_, ?_⟩
  · haveI : IsTotal Insight (fun a b => b.timestamp ≤ a.timestamp) :=
      ⟨fun a b => le_total b.timestamp a.timestamp⟩
    haveI : IsTrans Insight (fun a b => b.timestamp ≤ a.timestamp) :=
      ⟨fun a b c h1 h2 => le_trans h2 h1⟩
    exact List.sorted_insertionSort _ _
  · intro i hi
    rw [hmem] at hi
    rw [hmem]
    exact ⟨hi.1, Or.inl rfl, hi.2.2.1, hi.2.2.2⟩
  · intro i hi
    rw [hmem] at hi
    rw [hmem]
    exact ⟨hi.1, hi.2.1, Or.inl rfl, hi.2.2.2⟩
  · intro i hi
    rw [hmem] at hi
    rw [hmem]
    exact ⟨hi.1, hi.2.1, hi.2.2.1, Or.inl rfl⟩

/-! ## Log codec import loop (`internal/jsonl.readJSONL`) -/

/-- The *format* error of a failed import: the 1-based number of the line
that failed to decode, and the message built from it. -/
structure FormatError where
  line : Nat
  msg : String
deriving Repr, DecidableEq

/-- The scan loop of `readJSONL`, generic in the per-line decoder exactly
as the Go function is generic in its `factory`: `lineNum` counts every
scanned line (blank ones included); blank lines are skipped; the first
line that fails to decode aborts the whole import with a format error
carrying that line's number, returning no records. -/
def readJSONLLoop (dec : String → Option α) :
    List String → Nat → Except FormatError (List α)
  | [], _ => .ok []
  | line :: rest, lineNum =>
    let n := lineNum + 1
    if line = "" then
      readJSONLLoop dec rest n
    else
      match dec line with
      | none => .error ⟨n, "failed to decode JSON at line " ++ toString n⟩
      | some item =>
        match readJSONLLoop dec rest n with
        | .error e => .error e
        | .ok items => .ok (item :: items)

/-- `readJSONL` on a file presented as its list of lines. -/
def readJSONL (dec : String → Option α) (lines : List String) :
    Except FormatError (List α) :=
  readJSONLLoop dec lines 0

/-- Success case of the loop, at any starting line counter. -/
theorem readJSONLLoop_ok {α : Type} (dec : String → Option α)
    (lines : List String) (n : Nat)
    (h : ∀ l ∈ lines, l ≠ "" → (dec l).isSome) :
    readJSONLLoop dec lines n
      = .ok (lines.filterMap (fun l => if l = "" then none else dec l)) := by
  induction lines generalizing n with
  | nil => rfl
  | cons line rest ih =>
    by_cases hb : line = ""
    · simp only [readJSONLLoop, if_pos hb, List.filterMap_cons, hb, if_true]
      exact ih _ (fun l hl => h l (List.mem_cons_of_mem _ hl))
    · obtain ⟨item, hitem⟩ := Option.isSome_iff_exists.mp
        (h line (List.mem_cons_self _ _) hb)
      simp only [readJSONLLoop, if_neg hb, hitem, List.filterMap_cons]
      rw [ih _ (fun l hl => h l (List.mem_cons_of_mem _ hl))]

/-- Failure case of the loop: the reported line number is the 1-based
index (relative to the counter) of the first non-blank undecodable line. -/
theorem readJSONLLoop_error {α : Type} (dec : String → Option α)
    (lines : List String) (n : Nat)
    (h : lines.findIdx (fun l => !(l == "") && (dec l).isNone) < lines.length) :
    readJSONLLoop dec lines n
      = .error ⟨n + lines.findIdx (fun l => !(l == "") && (dec l).isNone) + 1,
          "failed to decode JSON at line "
            ++ toString (n + lines.findIdx (fun l => !(l == "") && (dec l).isNone) + 1)⟩ := by
  induction lines generalizing n with
  | nil => simp at h
  | cons line rest ih =>
    by_cases hb : line = ""
    · have hfi : (line :: rest).findIdx (fun l => !(l == "") && (dec l).isNone)
          = rest.findIdx (fun l => !(l == "") && (dec l).isNone) + 1 := by
        rw [List.findIdx_cons]
        simp [hb]
      rw [hfi] at h ⊢
      simp only [List.length_cons] at h
      have h' : rest.findIdx (fun l => !(l == "") && (dec l).isNone) < rest.length :=
        Nat.lt_of_succ_lt_succ h
      simp only [readJSONLLoop, if_pos hb]
      rw [ih _ h',
        show n + 1 + rest.findIdx (fun l => !(l == "") && (dec l).isNone) + 1
          = n + (rest.findIdx (fun l => !(l == "") && (dec l).isNone) + 1) + 1
          from by omega]
    · have hbeq : (line == "") = false := by
        simpa using hb
      cases hdec : dec line with
      | none =>
        have hfi : (line :: rest).findIdx
            (fun l => !(l == "") && (dec l).isNone) = 0 := by
          rw [List.findIdx_cons]
          simp [hbeq, hdec]
        rw [hfi]
        simp only [readJSONLLoop, if_neg hb, hdec]
      | some item =>
        have hfi : (line :: rest).findIdx (fun l => !(l == "") && (dec l).isNone)
            = rest.findIdx (fun l => !(l == "") && (dec l).isNone) + 1 := by
          rw [List.findIdx_cons]
          simp [hbeq, hdec]
        rw [hfi] at h ⊢
        simp only [List.length_cons] at h
        have h' : rest.findIdx (fun l => !(l == "") && (dec l).isNone) < rest.length :=
          Nat.lt_of_succ_lt_succ h
        simp only [readJSONLLoop, if_neg hb, hdec]
        rw [ih _ h',
          show n + 1 + rest.findIdx (fun l => !(l == "") && (dec l).isNone) + 1
            = n + (rest.findIdx (fun l => !(l == "") && (dec l).isNone) + 1) + 1
            from by omega]

/-- **C5**: import reads the file line by line skipping blank lines; if
every non-blank line decodes, all decoded records are returned in file
order; if any non-blank line fails to decode, the entire import fails with
a format error naming the (first) failing line's 1-based number — and, the
result being an error, no records are returned. -/
theorem C5_import_line_by_line {α : Type} (dec : String → Option α)
    (lines : List String) :
    ((∀ l ∈ lines, l ≠ "" → (dec l).isSome) →
        readJSONL dec lines
          = .ok (lines.filterMap (fun l => if l = "" then none else dec l))) ∧
      (lines.findIdx (fun l => !(l == "") && (dec l).isNone) < lines.length →
        readJSONL dec lines
          = .error ⟨lines.findIdx (fun l => !(l == "") && (dec l).isNone) + 1,
              "failed to decode JSON at line "
                ++ toString (lines.findIdx (fun l => !(l == "") && (dec l).isNone) + 1)⟩) := by
  constructor
  · intro h
    exact readJSONLLoop_ok dec lines 0 h
  · intro h
    have := readJSONLLoop_error dec lines 0 h
    simpa using this

/-- A sample decoder for the witness: accepts `"ok"` only. -/
def decOkOnly (l : String) : Option String :=
  if l = "ok" then some l else none

/-- **C5** (witness): the import theorem applied to a concrete decoder and
two concrete files — one fully decodable with a blank line, one with its
bad line at 1-based position 3. -/
theorem C5_import_line_by_line_witness :
    readJSONL decOkOnly ["ok", "", "ok"]
        = .ok (["ok", "", "ok"].filterMap
            (fun l => if l = "" then none else decOkOnly l)) ∧
      readJSONL decOkOnly ["ok", "", "bad"]
        = .error ⟨(["ok", "", "bad"].findIdx
              (fun l => !(l == "") && (decOkOnly l).isNone)) + 1,
            "failed to decode JSON at line "
              ++ toString ((["ok", "", "bad"].findIdx
                  (fun l => !(l == "") && (decOkOnly l).isNone)) + 1)⟩ :=
  ⟨(C5_import_line_by_line decOkOnly ["ok", "", "ok"]).1 (by decide),
    (C5_import_line_by_line decOkOnly ["ok", "", "bad"]).2 (by decide)⟩

/-! ## Schema migrator (`internal/store/migrations.go`)

The schema state records which tables exist, which of the two later-added
`insights` columns exist, and which named secondary objects (indexes, the
FTS virtual table and its triggers — all created with `IF NOT EXISTS`)
exist. -/

/-- Observable schema state of the SQLite database. -/
structure Schema where
  threadsTable : Bool
  insightsTable : Bool
  dependenciesTable : Bool
  configTable : Bool
  insightsAuthorID : Bool
  insightsEndorsedBy : Bool
  objects : List String
deriving Repr, DecidableEq

/-- `CREATE INDEX/VIRTUAL TABLE/TRIGGER IF NOT EXISTS <name> ...`:
a no-op when the named object exists. -/
def createIfNotExists (name : String) (s : Schema) : Schema :=
  if name ∈ s.objects then s else { s with objects := s.objects ++ [name] }

/-- The names of the secondary objects created by `migrateInitialSchema`'s
`indexes` slice, in statement order. -/
def initialSchemaObjects : List String :=
  ["idx_insights_thread_id", "idx_insights_type", "idx_insights_timestamp",
   "idx_insights_created_at", "idx_threads_status", "idx_dependencies_from",
   "idx_dependencies_to", "insights_fts", "insights_fts_insert",
   "insights_fts_delete", "insights_fts_update"]

/-- `CREATE TABLE IF NOT EXISTS threads ...`. -/
def createTableThreads (s : Schema) : Schema :=
  if s.threadsTable then s else { s with threadsTable := true }

/-- `CREATE TABLE IF NOT EXISTS insights ...`: the initial-schema insights
table has neither the `author_id` nor the `endorsed_by` column. -/
def createTableInsights (s : Schema) : Schema :=
  if s.insightsTable then s
  else { s with
    insightsTable := true
    insightsAuthorID := false
    insightsEndorsedBy := false }

/-- `CREATE TABLE IF NOT EXISTS dependencies ...`. -/
def createTableDependencies (s : Schema) : Schema :=
  if s.dependenciesTable then s else { s with dependenciesTable := true }

/-- `migrateInitialSchema`: three `CREATE TABLE IF NOT EXISTS` statements,
then the `IF NOT EXISTS` secondary objects.  Never fails. -/
def migrateInitialSchema (s : Schema) : Except String Schema :=
  .ok (initialSchemaObjects.foldl (fun acc n => createIfNotExists n acc)
    (createTableDependencies (createTableInsights (createTableThreads s))))

/-- `migrateInsightsAuthorID`: checks `pragma_table_info('insights')` for an
`author_id` column and is a no-op if present; otherwise `ALTER TABLE`
(which fails when the table itself is missing) and an `IF NOT EXISTS`
index. -/
def migrateInsightsAuthorID (s : Schema) : Except String Schema :=
  if s.insightsTable && s.insightsAuthorID then
    .ok s
  else if s.insightsTable then
    .ok (createIfNotExists "idx_insights_author_id"
      { s with insightsAuthorID := true })
  else
    .error "failed to add author_id column: no such table: insights"

/-- `migrateInsightsEndorsedBy`: same column-presence check for
`endorsed_by`, then `ALTER TABLE` with no index. -/
def migrateInsightsEndorsedBy (s : Schema) : Except String Schema :=
  if s.insightsTable && s.insightsEndorsedBy then
    .ok s
  else if s.insightsTable then
    .ok { s with insightsEndorsedBy := true }
  else
    .error "failed to add endorsed_by column: no such table: insights"

/-- `migrateConfigTable`: `CREATE TABLE IF NOT EXISTS config ...`. -/
def migrateConfigTable (s : Schema) : Except String Schema :=
  .ok (if s.configTable then s else { s with configTable := true })

/-- `RunMigrations`: the four steps of `migrationsList`, in order; the
first failure aborts with the step name wrapped around the error. -/
def RunMigrations (s : Schema) : Except String Schema :=
  match migrateInitialSchema s with
  | .error e => .error ("migration 001_initial_schema failed: " ++ e)
  | .ok s1 =>
    match migrateInsightsAuthorID s1 with
    | .error e => .error ("migration 002_insights_author_id failed: " ++ e)
    | .ok s2 =>
      match migrateInsightsEndorsedBy s2 with
      | .error e => .error ("migration 003_insights_endorsed_by failed: " ++ e)
      | .ok s3 =>
        match migrateConfigTable s3 with
        | .error e => .error ("migration 004_config_table failed: " ++ e)
        | .ok s4 => .ok s4

/-- A fully migrated schema: all four tables, both added `insights`
columns, and every initial-schema secondary object present.  (The
`author_id` index is deliberately not required: when the column already
exists, migration 002 skips the index too, and the re-run is still a
no-op.) -/
def migratedSchema (s : Schema) : Prop :=
  s.threadsTable = true ∧ s.insightsTable = true ∧
    s.dependenciesTable = true ∧ s.configTable = true ∧
    s.insightsAuthorID = true ∧ s.insightsEndorsedBy = true ∧
    ∀ n ∈ initialSchemaObjects, n ∈ s.objects

/-- `createIfNotExists` changes only the object list, keeps existing
objects, and makes its own name present. -/
theorem createIfNotExists_spec (name : String) (s : Schema) :
    (createIfNotExists name s).threadsTable = s.threadsTable ∧
      (createIfNotExists name s).insightsTable = s.insightsTable ∧
      (createIfNotExists name s).dependenciesTable = s.dependenciesTable ∧
      (createIfNotExists name s).configTable = s.configTable ∧
      (createIfNotExists name s).insightsAuthorID = s.insightsAuthorID ∧
      (createIfNotExists name s).insightsEndorsedBy = s.insightsEndorsedBy ∧
      name ∈ (createIfNotExists name s).objects ∧
      ∀ m ∈ s.objects, m ∈ (createIfNotExists name s).objects := by
  unfold createIfNotExists
  split
  · exact ⟨rfl, rfl, rfl, rfl, rfl, rfl, by assumption, fun m hm => hm⟩
  · exact ⟨rfl, rfl, rfl, rfl, rfl, rfl, by simp, fun m hm => by simp [hm]⟩

/-- Folding `createIfNotExists` preserves flags and old objects and makes
every folded name present. -/
theorem foldl_createIfNotExists_spec (names : List String) (s : Schema) :
    ((names.foldl (fun acc n => createIfNotExists n acc) s).threadsTable
        = s.threadsTable) ∧
      ((names.foldl (fun acc n => createIfNotExists n acc) s).insightsTable
        = s.insightsTable) ∧
      ((names.foldl (fun acc n => createIfNotExists n acc) s).dependenciesTable
        = s.dependenciesTable) ∧
      ((names.foldl (fun acc n => createIfNotExists n acc) s).configTable
        = s.configTable) ∧
      ((names.foldl (fun acc n => createIfNotExists n acc) s).insightsAuthorID
        = s.insightsAuthorID) ∧
      ((names.foldl (fun acc n => createIfNotExists n acc) s).insightsEndorsedBy
        = s.insightsEndorsedBy) ∧
      (∀ m ∈ s.objects,
        m ∈ (names.foldl (fun acc n => createIfNotExists n acc) s).objects) ∧
      ∀ n ∈ names,
        n ∈ (names.foldl (fun acc n => createIfNotExists n acc) s).objects := by
  induction names generalizing s with
  | nil => exact ⟨rfl, rfl, rfl, rfl, rfl, rfl, fun m hm => hm, by simp⟩
  | cons x xs ih =>
    obtain ⟨c1, c2, c3, c4, c5, c6, cmem, cself⟩ := createIfNotExists_spec x s
    obtain ⟨i1, i2, i3, i4, i5, i6, imem, iall⟩ := ih (createIfNotExists x s)
    simp only [List.foldl_cons]
    refine ⟨i1.trans c1, i2.trans c2, i3.trans c3, i4.trans c4,
      i5.trans c5, i6.trans c6, ?_, ?_⟩
    · exact fun m hm => imem m (cself m hm)
    · intro n hn
      rcases List.mem_cons.mp hn with rfl | hn
      · exact imem n cmem
      · exact iall n hn

/-- `createIfNotExists` is the identity when its name is already present. -/
theorem createIfNotExists_of_mem (name : String) (s : Schema)
    (h : name ∈ s.objects) : createIfNotExists name s = s := by
  unfold createIfNotExists
  exact if_pos h

/-- The fold is the identity on a schema that already has every name. -/
theorem foldl_createIfNotExists_of_mem (names : List String) (s : Schema)
    (h : ∀ n ∈ names, n ∈ s.objects) :
    names.foldl (fun acc n => createIfNotExists n acc) s = s := by
  induction names with
  | nil => rfl
  | cons x xs ih =>
    simp only [List.foldl_cons]
    rw [createIfNotExists_of_mem x s (h x (List.mem_cons_self _ _))]
    exact ih (fun n hn => h n (List.mem_cons_of_mem _ hn))

/-- Step 1 always succeeds and establishes the three core tables and all
initial secondary objects. -/
theorem migrateInitialSchema_post (s : Schema) :
    ∃ t, migrateInitialSchema s = .ok t ∧ t.threadsTable = true ∧
      t.insightsTable = true ∧ t.dependenciesTable = true ∧
      ∀ n ∈ initialSchemaObjects, n ∈ t.objects := by
  obtain ⟨f1, f2, f3, _, _, _, _, fall⟩ :=
    foldl_createIfNotExists_spec initialSchemaObjects
      (createTableDependencies (createTableInsights (createTableThreads s)))
  refine ⟨_, rfl, ?_, ?_, ?_, fall⟩
  · rw [f1]
    unfold createTableDependencies createTableInsights createTableThreads
    split_ifs <;> simp_all
  · rw [f2]
    unfold createTableDependencies createTableInsights createTableThreads
    split_ifs <;> simp_all
  · rw [f3]
    unfold createTableDependencies createTableInsights createTableThreads
    split_ifs <;> simp_all

/-- Step 2 succeeds whenever the insights table exists; it establishes the
`author_id` column, preserves the tables, the `endorsed_by` column and the
config table, and only grows the object list. -/
theorem migrateInsightsAuthorID_post (t : Schema) (h : t.insightsTable = true) :
    ∃ u, migrateInsightsAuthorID t = .ok u ∧ u.threadsTable = t.threadsTable ∧
      u.insightsTable = true ∧ u.dependenciesTable = t.dependenciesTable ∧
      u.configTable = t.configTable ∧ u.insightsAuthorID = true ∧
      u.insightsEndorsedBy = t.insightsEndorsedBy ∧
      ∀ m ∈ t.objects, m ∈ u.objects := by
  unfold migrateInsightsAuthorID
  by_cases ha : t.insightsAuthorID
  · refine ⟨t, ?_, rfl, h, rfl, rfl, ha, rfl, fun m hm => hm⟩
    rw [if_pos (by simp [h, ha])]
  · obtain ⟨c1, c2, c3, c4, c5, c6, _, cmem⟩ :=
      createIfNotExists_spec "idx_insights_author_id"
        { t with insightsAuthorID := true }
    refine ⟨_, ?_, c1, by rw [c2]; exact h, c3, c4, c5, c6, cmem⟩
    rw [if_neg (by simp [ha]), if_pos h]

/-- Step 3 succeeds whenever the insights table exists; it establishes the
`endorsed_by` column and preserves everything else. -/
theorem migrateInsightsEndorsedBy_post (t : Schema)
    (h : t.insightsTable = true) :
    ∃ u, migrateInsightsEndorsedBy t = .ok u ∧
      u.threadsTable = t.threadsTable ∧ u.insightsTable = true ∧
      u.dependenciesTable = t.dependenciesTable ∧
      u.configTable = t.configTable ∧
      u.insightsAuthorID = t.insightsAuthorID ∧
      u.insightsEndorsedBy = true ∧ u.objects = t.objects := by
  unfold migrateInsightsEndorsedBy
  by_cases he : t.insightsEndorsedBy
  · refine ⟨t, ?_, rfl, h, rfl, rfl, rfl, he, rfl⟩
    rw [if_pos (by simp [h, he])]
  · refine ⟨{ t with insightsEndorsedBy := true }, ?_, rfl, h, rfl, rfl,
      rfl, rfl, rfl⟩
    rw [if_neg (by simp [he]), if_pos h]

/-- Step 4 always succeeds; it establishes the config table and preserves
everything else. -/
theorem migrateConfigTable_post (t : Schema) :
    ∃ u, migrateConfigTable t = .ok u ∧ u.threadsTable = t.threadsTable ∧
      u.insightsTable = t.insightsTable ∧
      u.dependenciesTable = t.dependenciesTable ∧ u.configTable = true ∧
      u.insightsAuthorID = t.insightsAuthorID ∧
      u.insightsEndorsedBy = t.insightsEndorsedBy ∧
      u.objects = t.objects := by
  unfold migrateConfigTable
  by_cases hc : t.configTable = true
  · rw [if_pos hc]
    exact ⟨t, rfl, rfl, rfl, rfl, hc, rfl, rfl, rfl⟩
  · rw [if_neg hc]
    exact ⟨_, rfl, rfl, rfl, rfl, rfl, rfl, rfl, rfl⟩

/-- Any run of the migrator that completes leaves a fully migrated
schema. -/
theorem runMigrations_migrated (s s' : Schema)
    (h : RunMigrations s = .ok s') : migratedSchema s' := by
  obtain ⟨t, hA, ht1, ht2, ht3, htobj⟩ := migrateInitialSchema_post s
  obtain ⟨u, hB, hu1, hu2, hu3, hu4, hu5, hu6, huobj⟩ :=
    migrateInsightsAuthorID_post t ht2
  obtain ⟨v, hC, hv1, hv2, hv3, hv4, hv5, hv6, hvobj⟩ :=
    migrateInsightsEndorsedBy_post u hu2
  obtain ⟨w, hD, hw1, hw2, hw3, hw4, hw5, hw6, hwobj⟩ :=
    migrateConfigTable_post v
  unfold RunMigrations at h
  simp only [hA, hB, hC, hD] at h
  cases h
  refine ⟨?_, ?_, ?_, hw4, ?_, ?_, ?_⟩
  · rw [hw1, hv1, hu1]; exact ht1
  · rw [hw2, hv2]
  · rw [hw3, hv3, hu3]; exact ht3
  · rw [hw5, hv5, hu5]
  · rw [hw6, hv6]
  · intro n hn
    rw [hwobj, hvobj]
    exact huobj n (htobj n hn)

/-- On a fully migrated schema, every migration step is a no-op and the
run succeeds returning the schema unchanged. -/
theorem runMigrations_of_migrated (s : Schema) (hm : migratedSchema s) :
    RunMigrations s = .ok s := by
  obtain ⟨h1, h2, h3, h4, h5, h6, hobj⟩ := hm
  have hstep1 : migrateInitialSchema s = .ok s := by
    unfold migrateInitialSchema createTableDependencies createTableInsights
      createTableThreads
    rw [if_pos h1, if_pos h2, if_pos h3,
      foldl_createIfNotExists_of_mem _ _ hobj]
  have hstep2 : migrateInsightsAuthorID s = .ok s := by
    unfold migrateInsightsAuthorID
    rw [if_pos (by simp [h2, h5])]
  have hstep3 : migrateInsightsEndorsedBy s = .ok s := by
    unfold migrateInsightsEndorsedBy
    rw [if_pos (by simp [h2, h6])]
  have hstep4 : migrateConfigTable s = .ok s := by
    unfold migrateConfigTable
    rw [if_pos h4]
  unfold RunMigrations
  simp only [hstep1, hstep2, hstep3, hstep4]

/-- **C6**: running the Schema Migrator twice against the same database
succeeds both times, and the second run leaves the schema exactly as the
first run left it — every step is a no-op once its change exists. -/
theorem C6_migrations_idempotent (s s' : Schema)
    (h : RunMigrations s = .ok s') : RunMigrations s' = .ok s' :=
  runMigrations_of_migrated s' (runMigrations_migrated s s' h)

/-- **C6** (witness): both runs on an initially empty schema. -/
theorem C6_migrations_idempotent_witness :
    RunMigrations
        ⟨true, true, true, true, true, true,
          initialSchemaObjects ++ ["idx_insights_author_id"]⟩
      = .ok ⟨true, true, true, true, true, true,
          initialSchemaObjects ++ ["idx_insights_author_id"]⟩ :=
  C6_migrations_idempotent ⟨false, false, false, false, false, false, []⟩ _
    (by rfl)

/-! ## Dependency-chain trace (`cmd/bdc/trace.go`)

The Go `traceChain` loop runs while `current != "" && !visited[current]`,
inserting `current` into the visited set each iteration.  The loop is
embedded with an explicit fuel counter, `none` meaning the fuel ran out;
termination (claim C7) is the theorem that from `len(dependencies) + 2`
fuel upward the result is one fixed chain. -/

/-- One step of the printed chain: an insight and the relation by which it
was reached from its predecessor (empty for the chain head). -/
structure ChainItem where
  insightID : String
  relationFromPrev : String
deriving Repr, DecidableEq

/-- The edge filter of `traceChain`'s inner loop:
`dep.Type == DepBuildsOn || dep.Type == DepSupersedes`. -/
def isBacklink (d : Dependency) : Bool :=
  d.type == DepBuildsOn || d.type == DepSupersedes

/-- The `traceChain` loop body: stop on the empty id or a revisited node;
otherwise follow the first builds-on/supersedes edge of
`GetDependents(current)` (or stop after this node when there is none),
prepending the current node to the chain. -/
def traceChainAux (s : Store) :
    Nat → String → List String → List ChainItem → Option (List ChainItem)
  | 0, _, _, _ => none
  | fuel + 1, current, visited, chain =>
    if current = "" ∨ current ∈ visited then some chain
    else
      match (GetDependents s current).find? isBacklink with
      | some d =>
        traceChainAux s fuel d.fromID (current :: visited)
          ({ insightID := current, relationFromPrev := d.type } :: chain)
      | none =>
        traceChainAux s fuel "" (current :: visited)
          ({ insightID := current, relationFromPrev := "" } :: chain)

/-- `traceChain` with fuel sufficient for every store (proved in C7). -/
def traceChain (s : Store) (startID : String) : Option (List ChainItem) :=
  traceChainAux s (s.dependencies.length + 2) startID [] []

/-- A halted trace run is insensitive to extra fuel. -/
theorem traceChainAux_mono (s : Store) (fuel fuel' : Nat) (cur : String)
    (vis : List String) (ch c : List ChainItem)
    (h : traceChainAux s fuel cur vis ch = some c) (hf : fuel ≤ fuel') :
    traceChainAux s fuel' cur vis ch = some c := by
  induction fuel generalizing fuel' cur vis ch with
  | zero => exact absurd h (by simp [traceChainAux])
  | succ f ih =>
    obtain ⟨f', rfl⟩ : ∃ f', fuel' = f' + 1 := ⟨fuel' - 1, by omega⟩
    unfold traceChainAux at h ⊢
    split at h
    · rename_i hcond
      rw [if_pos hcond]
      exact h
    · rename_i hcond
      rw [if_neg hcond]
      cases hfind : (GetDependents s cur).find? isBacklink with
      | some d =>
        rw [hfind] at h
        exact ih _ _ _ _ h (by omega)
      | none =>
        rw [hfind] at h
        exact ih _ _ _ _ h (by omega)

/-- With fuel exceeding the number of not-yet-visited candidate nodes, the
trace loop halts: every continuing iteration moves to a source id of some
dependency row and marks one more node visited. -/
theorem traceChainAux_isSome (s : Store) (fuel : Nat) (cur : String)
    (vis : List String) (ch : List ChainItem)
    (hcur : cur = "" ∨ cur ∈ s.dependencies.map (fun d => d.fromID))
    (hfuel : ((s.dependencies.map (fun d => d.fromID)).toFinset
        \ vis.toFinset).card + 1 ≤ fuel) :
    ∃ c, traceChainAux s fuel cur vis ch = some c := by
  induction fuel generalizing cur vis ch with
  | zero => omega
  | succ f ih =>
    unfold traceChainAux
    by_cases hstop : cur = "" ∨ cur ∈ vis
    · rw [if_pos hstop]
      exact ⟨ch, rfl⟩
    · rw [if_neg hstop]
      push_neg at hstop
      obtain ⟨hne, hnvis⟩ := hstop
      have hcur' : cur ∈ s.dependencies.map (fun d => d.fromID) :=
        hcur.resolve_left hne
      have hdec : ((s.dependencies.map (fun d => d.fromID)).toFinset
            \ (cur :: vis).toFinset).card
          < ((s.dependencies.map (fun d => d.fromID)).toFinset
            \ vis.toFinset).card := by
        apply Finset.card_lt_card
        rw [List.toFinset_cons]
        refine ⟨Finset.sdiff_subset_sdiff (Finset.Subset.refl _)
          (Finset.subset_insert _ _), fun hsub => ?_⟩
        have hmem : cur ∈ (s.dependencies.map (fun d => d.fromID)).toFinset
            \ vis.toFinset :=
          Finset.mem_sdiff.mpr ⟨by simpa using hcur', by simpa using hnvis⟩
        have hnot : cur ∉ (s.dependencies.map (fun d => d.fromID)).toFinset
            \ insert cur vis.toFinset := by simp
        exact hnot (hsub hmem)
      cases hfind : (GetDependents s cur).find? isBacklink with
      | some d =>
        have hd : d ∈ s.dependencies := by
          have hmem := List.mem_of_find?_eq_some hfind
          rw [GetDependents, (List.perm_insertionSort _ _).mem_iff, List.mem_filter] at hmem
          exact hmem.1
        exact ih d.fromID (cur :: vis) _
          (Or.inr (List.mem_map.mpr ⟨d, hd, rfl⟩)) (by omega)
      | none =>
        exact ih "" (cur :: vis) _ (Or.inl rfl) (by omega)

/-- The concrete store of the C7 cycle scenario: three builds-on edges
forming the cycle A→B→C→A. -/
def cycleStore : Store :=
  ⟨[], [],
    [⟨"ins-a", "ins-b", "builds-on", 1⟩,
     ⟨"ins-b", "ins-c", "builds-on", 2⟩,
     ⟨"ins-c", "ins-a", "builds-on", 3⟩], []⟩

/-- **C7**: for every dependency graph the backward trace walk terminates —
there is one finite chain that the loop returns under every fuel bound of
at least `len(dependencies) + 2`, because the visited-set guard stops the
walk — and on the concrete builds-on cycle A→B→C→A it returns the finite
three-element chain. -/
theorem C7_trace_terminates :
    (∀ (s : Store) (startID : String), ∃ chain,
      ∀ fuel, s.dependencies.length + 2 ≤ fuel →
        traceChainAux s fuel startID [] [] = some chain) ∧
      traceChain cycleStore "ins-a"
        = some [⟨"ins-b", "builds-on"⟩, ⟨"ins-c", "builds-on"⟩,
            ⟨"ins-a", "builds-on"⟩] := by
  constructor
  · intro s startID
    have hcard : ((s.dependencies.map (fun d => d.fromID)).toFinset
        \ ([] : List String).toFinset).card ≤ s.dependencies.length := by
      calc ((s.dependencies.map (fun d => d.fromID)).toFinset
            \ ([] : List String).toFinset).card
          ≤ (s.dependencies.map (fun d => d.fromID)).toFinset.card :=
            Finset.card_le_card (Finset.sdiff_subset)
        _ ≤ (s.dependencies.map (fun d => d.fromID)).length :=
            List.toFinset_card_le _
        _ = s.dependencies.length := List.length_map _ _
    by_cases hstart : startID = ""
        ∨ startID ∈ s.dependencies.map (fun d => d.fromID)
    · obtain ⟨c, hc⟩ := traceChainAux_isSome s (s.dependencies.length + 2)
        startID [] [] hstart (by omega)
      exact ⟨c, fun fuel hf =>
        traceChainAux_mono s _ fuel _ _ _ _ hc hf⟩
    · push_neg at hstart
      obtain ⟨hne, hncand⟩ := hstart
      have hcard1 : ∀ (vis1 : List String),
          ((s.dependencies.map (fun d => d.fromID)).toFinset
            \ vis1.toFinset).card ≤ s.dependencies.length := fun vis1 => by
        calc ((s.dependencies.map (fun d => d.fromID)).toFinset
              \ vis1.toFinset).card
            ≤ (s.dependencies.map (fun d => d.fromID)).toFinset.card :=
              Finset.card_le_card (Finset.sdiff_subset)
          _ ≤ (s.dependencies.map (fun d => d.fromID)).length :=
              List.toFinset_card_le _
          _ = s.dependencies.length := List.length_map _ _
      cases hfind : (GetDependents s startID).find? isBacklink with
      | some d =>
        have hd : d ∈ s.dependencies := by
          have hmem := List.mem_of_find?_eq_some hfind
          rw [GetDependents, (List.perm_insertionSort _ _).mem_iff, List.mem_filter] at hmem
          exact hmem.1
        obtain ⟨c, hc⟩ := traceChainAux_isSome s (s.dependencies.length + 1)
          d.fromID [startID] [⟨startID, d.type⟩]
          (Or.inr (List.mem_map.mpr ⟨d, hd, rfl⟩))
          (by have := hcard1 [startID]; omega)
        refine ⟨c, fun fuel hf => ?_⟩
        obtain ⟨f, rfl⟩ : ∃ f, fuel = f + 1 := ⟨fuel - 1, by omega⟩
        unfold traceChainAux
        rw [if_neg (by simp [hne]), hfind]
        exact traceChainAux_mono s _ f _ _ _ _ hc (by omega)
      | none =>
        obtain ⟨c, hc⟩ := traceChainAux_isSome s (s.dependencies.length + 1)
          "" [startID] [⟨startID, ""⟩] (Or.inl rfl)
          (by have := hcard1 [startID]; omega)
        refine ⟨c, fun fuel hf => ?_⟩
        obtain ⟨f, rfl⟩ : ∃ f, fuel = f + 1 := ⟨fuel - 1, by omega⟩
        unfold traceChainAux
        rw [if_neg (by simp [hne]), hfind]
        exact traceChainAux_mono s _ f _ _ _ _ hc (by omega)
  · decide

/-- `runTrace`'s spawning-insight scan: every insight whose outgoing
dependencies contain a `spawns` edge to the given bead, in `ListInsights`
order, once per matching edge. -/
def findSpawningInsights (s : Store) (beadID : String) : List String :=
  (ListInsights s "" "" 0).flatMap (fun ins =>
    (GetDependencies s ins.id).filterMap (fun dep =>
      if dep.toID == beadID && dep.type == DepSpawns then some ins.id
      else none))

/-- The edge annotations `runTrace` prints under each chain item: for every
item but the last, the next item's relation; for the last, the spawns
arrow to the bead. -/
def traceAnnotations (chain : List ChainItem) (beadID : String) :
    List String :=
  match chain with
  | [] => []
  | _ :: _ =>
    (chain.drop 1).map (fun it => it.relationFromPrev)
      ++ ["spawns → " ++ beadID]

/-- A concrete insight fixture for scenario stores. -/
def sampleInsight (id : String) (ts : Timestamp) : Insight :=
  ⟨id, ts, "content of " ++ id, "", "discovery", 1, ⟨"human", "", none⟩,
    "", "", none, none, "", ts⟩

/-- The concrete store of the C8 scenario: insight A builds on insight B,
and B spawns the external task `bead-7f2a`. -/
def scenarioStore : Store :=
  ⟨[sampleInsight "ins-a" 1, sampleInsight "ins-b" 2], [],
    [⟨"ins-a", "ins-b", "builds-on", 1⟩,
     ⟨"ins-b", "bead-7f2a", "spawns", 2⟩], []⟩

/-- On a creation-time-ascending sorted edge list, `find?` returns a
matching edge of minimal creation time among all matching edges. -/
theorem find?_isBacklink_min (l : List Dependency)
    (hsorted : l.Pairwise (fun a b => a.createdAt ≤ b.createdAt))
    (e : Dependency) (he : e ∈ l) (hp : isBacklink e = true) :
    ∃ d, l.find? isBacklink = some d ∧ d ∈ l ∧ isBacklink d = true ∧
      ∀ e' ∈ l, isBacklink e' = true → d.createdAt ≤ e'.createdAt := by
  induction l with
  | nil => cases he
  | cons x xs ih =>
    obtain ⟨hx, hxs⟩ := List.pairwise_cons.mp hsorted
    by_cases hbx : isBacklink x = true
    · refine ⟨x, List.find?_cons_of_pos _ hbx, List.mem_cons_self _ _, hbx, ?_⟩
      intro e' he' _
      rcases List.mem_cons.mp he' with rfl | he'
      · exact le_refl _
      · exact hx e' he'
    · have he'' : e ∈ xs := by
        rcases List.mem_cons.mp he with rfl | h
        · exact absurd hp hbx
        · exact h
      obtain ⟨d, hfind, hdmem, hdb, hdmin⟩ := ih hxs he''
      refine ⟨d, ?_, List.mem_cons_of_mem _ hdmem, hdb, ?_⟩
      · rw [List.find?_cons_of_neg _ (by simpa using hbx)]
        exact hfind
      · intro e' he' hbe'
        rcases List.mem_cons.mp he' with rfl | he'
        · exact absurd hbe' hbx
        · exact hdmin e' he' hbe'

/-- **C8**: in the store where insight A builds on insight B and B spawns
the external task `bead-7f2a`, the trace of that task starts from B only
and yields the chain [A, B] with annotations
["builds-on", "spawns → bead-7f2a"]; and in every store, when at least one
builds-on/supersedes edge points at the current node, the walk follows an
edge of minimal creation time among them — the first one in the store's
creation-time-ascending `GetDependents` order. -/
theorem C8_trace_scenario_and_tiebreak :
    (findSpawningInsights scenarioStore "bead-7f2a" = ["ins-b"] ∧
      traceChain scenarioStore "ins-b"
        = some [⟨"ins-a", ""⟩, ⟨"ins-b", "builds-on"⟩] ∧
      (([⟨"ins-a", ""⟩, ⟨"ins-b", "builds-on"⟩] : List ChainItem).map
        (fun it => it.insightID)) = ["ins-a", "ins-b"] ∧
      traceAnnotations [⟨"ins-a", ""⟩, ⟨"ins-b", "builds-on"⟩] "bead-7f2a"
        = ["builds-on", "spawns → bead-7f2a"]) ∧
    ∀ (s : Store) (cur : String) (e : Dependency),
      e ∈ s.dependencies → e.toID = cur → isBacklink e = true →
      ∃ d, (GetDependents s cur).find? isBacklink = some d ∧
        d ∈ s.dependencies ∧ d.toID = cur ∧ isBacklink d = true ∧
        ∀ e' ∈ s.dependencies, e'.toID = cur → isBacklink e' = true →
          d.createdAt ≤ e'.createdAt := by
  constructor
  · refine ⟨by decide, by decide, by decide, by decide⟩
  · intro s cur e he heto hebp
    have hsorted : (GetDependents s cur).Pairwise
        (fun a b => a.createdAt ≤ b.createdAt) := by
      haveI : IsTotal Dependency (fun a b => a.createdAt ≤ b.createdAt) :=
        ⟨fun a b => le_total a.createdAt b.createdAt⟩
      haveI : IsTrans Dependency (fun a b => a.createdAt ≤ b.createdAt) :=
        ⟨fun a b c h1 h2 => le_trans h1 h2⟩
      exact List.sorted_insertionSort _ _
    have hel : e ∈ GetDependents s cur := by
      rw [GetDependents, (List.perm_insertionSort _ _).mem_iff, List.mem_filter]
      exact ⟨he, by simp [heto]⟩
    obtain ⟨d, hfind, hdmem, hdb, hdmin⟩ :=
      find?_isBacklink_min _ hsorted e hel hebp
    rw [GetDependents, (List.perm_insertionSort _ _).mem_iff, List.mem_filter] at hdmem
    refine ⟨d, hfind, hdmem.1, by simpa using hdmem.2, hdb, ?_⟩
    intro e' he' he'to he'b
    exact hdmin e' (by
      rw [GetDependents, (List.perm_insertionSort _ _).mem_iff, List.mem_filter]
      exact ⟨he', by simp [he'to]⟩) he'b

/-- **C8** (witness): the tie-break clause applied to a concrete store with
two builds-on edges into the same node, where the walk must take the
earlier-created one. -/
theorem C8_trace_scenario_and_tiebreak_witness :
    ∃ d, (GetDependents ⟨[], [],
        [⟨"ins-x", "ins-t", "builds-on", 7⟩,
         ⟨"ins-y", "ins-t", "builds-on", 4⟩], []⟩ "ins-t").find? isBacklink
        = some d ∧
      d ∈ ([⟨"ins-x", "ins-t", "builds-on", 7⟩,
         ⟨"ins-y", "ins-t", "builds-on", 4⟩] : List Dependency) ∧
      d.toID = "ins-t" ∧ isBacklink d = true ∧
      ∀ e' ∈ ([⟨"ins-x", "ins-t", "builds-on", 7⟩,
         ⟨"ins-y", "ins-t", "builds-on", 4⟩] : List Dependency),
        e'.toID = "ins-t" → isBacklink e' = true →
          d.createdAt ≤ e'.createdAt :=
  C8_trace_scenario_and_tiebreak.2
    ⟨[], [], [⟨"ins-x", "ins-t", "builds-on", 7⟩,
      ⟨"ins-y", "ins-t", "builds-on", 4⟩], []⟩ "ins-t"
    ⟨"ins-x", "ins-t", "builds-on", 7⟩
    (by decide) (by decide) (by decide)

/-! ## Unresolved-question filter (`cmd/bdc/questions.go`) -/

/-- `filterUnresolved`: keep the insights with no incoming `supersedes`
edge; the Go loop's `isSuperseded` flag over `GetDependents` is the `any`
below. -/
def filterUnresolved (s : Store) (insights : List Insight) : List Insight :=
  insights.filter (fun ins =>
    !((GetDependents s ins.id).any (fun dep => dep.type == DepSupersedes)))

/-- The concrete store of the C9 scenario: Q3 supersedes Q2, and Q1 has an
incoming edge of a different type (builds-on), which must not count as
resolution. -/
def questionStore : Store :=
  ⟨[sampleInsight "ins-q1" 1, sampleInsight "ins-q2" 2], [],
    [⟨"ins-q3", "ins-q2", "supersedes", 1⟩,
     ⟨"ins-x", "ins-q1", "builds-on", 2⟩], []⟩

/-- **C9**: the unresolved filter keeps exactly the insights with no
incoming supersedes edge, regardless of other incoming edge types; on the
concrete Q1 (incoming builds-on only) and Q2 (incoming supersedes from Q3)
it keeps Q1 only. -/
theorem C9_unresolved_filter :
    (∀ (s : Store) (insights : List Insight) (i : Insight),
      i ∈ filterUnresolved s insights ↔
        i ∈ insights ∧
          ¬∃ d ∈ s.dependencies, d.toID = i.id ∧ d.type = DepSupersedes) ∧
      filterUnresolved questionStore
          [sampleInsight "ins-q1" 1, sampleInsight "ins-q2" 2]
        = [sampleInsight "ins-q1" 1] := by
  constructor
  · intro s insights i
    rw [filterUnresolved, List.mem_filter]
    constructor
    · rintro ⟨hmem, hflag⟩
      refine ⟨hmem, ?_⟩
      rintro ⟨d, hd, hdto, hdty⟩
      have : (GetDependents s i.id).any
          (fun dep => dep.type == DepSupersedes) = true := by
        rw [List.any_eq_true]
        refine ⟨d, ?_, by simp [hdty]⟩
        rw [GetDependents, (List.perm_insertionSort _ _).mem_iff, List.mem_filter]
        exact ⟨hd, by simp [hdto]⟩
      simp [this] at hflag
    · rintro ⟨hmem, hno⟩
      refine ⟨hmem, ?_⟩
      rw [Bool.not_eq_eq_eq_not, Bool.not_true, Bool.eq_false_iff]
      intro hany
      rw [List.any_eq_true] at hany
      obtain ⟨d, hd, hdty⟩ := hany
      rw [GetDependents, (List.perm_insertionSort _ _).mem_iff, List.mem_filter] at hd
      exact hno ⟨d, hd.1, by simpa using hd.2, by simpa using hdty⟩
  · decide

end Beadcrumbs
